import Mathlib

/-!
Verification of the saffron user-account workflow service
(UserController) against its specification.

The controller source is callback-style JavaScript over a document store.
The embedding below renders it as pure Lean functions:
  - the document store is an explicit value of type List User, threaded in
    and out of every operation that touches it;
  - an error-first callback becomes an explicit result component: either an
    Except value (operations that always deliver an error or a result) or a
    pair of Option values (operations that can complete with neither);
  - side effects on external collaborators (store reads and writes, mail
    sends) are recorded in an explicit effect trace where a claim needs
    them;
  - collaborator operations whose code lives outside the excerpt (the User
    model: hashing, token generation and verification, profile validation)
    are modelled from the specification, each marked Modelled from the
    spec in its doc comment.
-/

namespace Saffron

/-- Error value handed to callbacks: in the source every failure is an
object with a human-readable message field. -/
structure ErrMsg where
  message : String
deriving Repr, DecidableEq

/-- A JavaScript value as far as the typeof-email check in createUser can
distinguish it: a string, or anything else. -/
inductive JsVal where
  | str (s : String)
  | nonStr
deriving Repr, DecidableEq

/-- Lowercasing used by email normalization (email.toLowerCase()) and by
the case-insensitive matches, computed characterwise over the string data
so that it reduces in the kernel. -/
def lowerStr (s : String) : String := String.mk (s.data.map Char.toLower)

/-- Case-insensitive exact equality of two strings: the semantics of the
anchored case-insensitive regular expression the source builds from an
email, with the email read as literal text, and also of the unique index
the spec postulates for emails. -/
def eqCI (a b : String) : Bool := lowerStr a == lowerStr b

/-- Lexicographic order on character lists by code point, the order the
store sorts strings in. -/
def strLe : List Char → List Char → Bool
  | [], _ => true
  | _ :: _, [] => false
  | a :: as, b :: bs =>
    if a.toNat < b.toNat then true
    else if b.toNat < a.toNat then false
    else strLe as bs

/-- Does pat occur as a contiguous run inside s (both character lists)? -/
def containsSub (pat : List Char) : List Char → Bool
  | [] => pat.isEmpty
  | c :: rest => List.isPrefixOf pat (c :: rest) || containsSub pat rest

/-- Case-insensitive substring match: the semantics of the unanchored
case-insensitive regular expression field match the listing builds from
the search text, with the text read as literal text. -/
def containsCI (s pat : String) : Bool :=
  containsSub (lowerStr pat).data (lowerStr s).data

/-- Profile subdocument. The source validates a profile through the
external User.validateProfile; the wellFormed flag stands for passing that
shape validation (Modelled from the spec: validate profile shape). -/
structure Profile where
  name : String
  wellFormed : Bool := true
deriving Repr, DecidableEq

/-- Submission subdocument: code plus title. -/
structure Submission where
  code : String
  title : String
deriving Repr, DecidableEq

/-- A stored user document, with the fields the controller touches. -/
structure User where
  id : Nat
  email : String
  password : String
  verified : Bool := false
  profile : Profile := {name := ""}
  teamCode : String := ""
  code : String := ""
  title : String := ""
  lastUpdated : Nat := 0
  completedProfile : Bool := false
deriving Repr, DecidableEq

/-- Modelled from the spec: tokens are opaque strings bound to a user id
or email and a purpose (login, email verification, password reset), with
distinct verification paths per purpose. We model them as a tagged type;
the invalid constructor stands for any string the verifiers reject
(garbage, expired, or wrong purpose). -/
inductive Token where
  | auth (id : Nat)
  | emailVerification (email : String)
  | tempAuth (id : Nat)
  | invalid (s : String)
deriving Repr, DecidableEq

/-- Modelled from the spec: User.generateHash produces the stored password
hash; a deterministic injective stand-in. -/
def generateHash (password : String) : String := "$2a$hash$" ++ password

/-- Modelled from the spec: user.checkPassword compares a candidate
password against the stored hash. -/
def User.checkPassword (u : User) (password : String) : Bool :=
  u.password == generateHash password

/-- Modelled from the spec: user.generateAuthToken issues a session token
bound to the user id. -/
def User.generateAuthToken (u : User) : Token := Token.auth u.id

/-- Modelled from the spec: user.generateEmailVerificationToken issues a
verification token bound to the user email. -/
def User.generateEmailVerificationToken (u : User) : Token :=
  Token.emailVerification u.email

/-- Modelled from the spec: user.generateTempAuthToken issues a password
reset token bound to the user id. -/
def User.generateTempAuthToken (u : User) : Token := Token.tempAuth u.id

/-- Modelled from the spec: User.verifyEmailVerificationToken decodes a
verification token to its email through an error-first callback, and fails
(an error, no email) on a token that is invalid, expired, or of another
purpose. -/
def verifyEmailVerificationToken (t : Token) : Option ErrMsg × Option String :=
  match t with
  | Token.emailVerification e => (none, some e)
  | _ => (some {message := "invalid verification token"}, none)

/-- Split a character list at the at-sign, for the email format check. -/
def splitAtSign : List Char → List (List Char)
  | [] => [[]]
  | c :: rest =>
    let r := splitAtSign rest
    if c == '@' then [] :: r
    else
      match r with
      | [] => [[c]]
      | g :: gs => (c :: g) :: gs

/-- Model of the external validator.isEmail collaborator: one at-sign with
a nonempty local part and a nonempty domain containing a dot. -/
def isEmail (s : String) : Bool :=
  match splitAtSign s.data with
  | [lp, dom] => !lp.isEmpty && !dom.isEmpty && dom.elem '.'
  | _ => false

/-- Modelled from the spec: the store lookup User.findOneByEmail; emails
are unique case-insensitively, so the lookup matches case-insensitively. -/
def findOneByEmail (store : List User) (email : String) : Option User :=
  store.find? (fun u => eqCI u.email email)

/-- The store operation findOneAndUpdate(filter, update, {new : true}):
apply the update to the first document matching the filter and return the
updated document, or no document when nothing matches. -/
def findOneAndUpdate (p : User → Bool) (f : User → User) :
    List User → List User × Option User
  | [] => ([], none)
  | u :: rest =>
    if p u then (f u :: rest, some (f u))
    else
      let r := findOneAndUpdate p f rest
      (u :: r.1, r.2)

/-- An observable interaction with an external collaborator, recorded in
order of occurrence. -/
inductive Effect where
  | storeRead
  | storeWrite
  | emailSent (address : String)
deriving Repr, DecidableEq

/-- The serialized form of a user as a callback hands it outward: same
fields, but the password is optional because the login path deletes it
before answering. -/
structure JsonUser where
  id : Nat
  email : String
  password : Option String
  verified : Bool
  profile : Profile
  teamCode : String
  code : String
  title : String
  lastUpdated : Nat
  completedProfile : Bool
deriving Repr, DecidableEq

/-- user.toJSON(): every stored field, the password hash included. -/
def User.toJSON (u : User) : JsonUser :=
  { id := u.id, email := u.email, password := some u.password,
    verified := u.verified, profile := u.profile, teamCode := u.teamCode,
    code := u.code, title := u.title, lastUpdated := u.lastUpdated,
    completedProfile := u.completedProfile }

/-- The login path serializes the user and then deletes the password field
before calling back. -/
def sanitize (u : User) : JsonUser := { u.toJSON with password := none }

/-- canRegister: reject when the password is falsy (absent or empty) or
shorter than 6 characters; otherwise the registration may proceed. The
two components mirror the callback arguments (err, valid); the source
never pairs a null error with valid false. -/
def canRegister (password : Option String) : Option ErrMsg × Bool :=
  match password with
  | none => (some {message := "Password must be 6 or more characters."}, false)
  | some p =>
    if p.length < 6 then
      (some {message := "Password must be 6 or more characters."}, false)
    else (none, true)

/-- The success payload of registration and login: a session token plus
the serialized user. -/
structure AuthResult where
  token : Token
  user : JsonUser
deriving Repr, DecidableEq

/-- UserController.loginWithPassword: reject a falsy or empty password,
then an address validator.isEmail refuses, then an unknown email, then a
wrong password; on success issue a fresh session token and answer with the
serialized user whose password field was deleted. -/
def loginWithPassword (store : List User) (email : String)
    (password : Option String) : Except ErrMsg AuthResult :=
  match password with
  | none => Except.error {message := "Please enter a password"}
  | some p =>
    if p.length = 0 then Except.error {message := "Please enter a password"}
    else if !isEmail email then Except.error {message := "Invalid email"}
    else
      match findOneByEmail store email with
      | none => Except.error {message := "We couldn\x27t find you!"}
      | some user =>
        if !user.checkPassword p then
          Except.error {message := "That\x27s not the right password."}
        else
          Except.ok {token := user.generateAuthToken, user := sanitize user}

/-- UserController.createUser: reject a non-string email; lowercase the
email; run canRegister (the password length gate) before any store
access; look the normalized email up and reject a duplicate; otherwise
save the new user (its id assigned by the store on save), issue a session
token and a verification token, send the verification email, and call
back with the token and the saved document. The saved document is returned
as-is: unlike the login path nothing deletes its password field. Returns
the new store contents, the effect trace, and the callback value. -/
def createUser (store : List User) (email : JsVal) (password : Option String) :
    List User × List Effect × Except ErrMsg AuthResult :=
  match email with
  | JsVal.nonStr => (store, [], Except.error {message := "Email must be a string."})
  | JsVal.str rawEmail =>
    let e := lowerStr rawEmail
    match canRegister password with
    | (some err, _) => (store, [], Except.error err)
    | (none, _) =>
      match findOneByEmail store e with
      | some _ =>
        (store, [Effect.storeRead],
         Except.error {message := "An account for this email already exists."})
      | none =>
        let u : User := { id := store.length, email := e,
                          password := generateHash (password.getD "") }
        (store ++ [u],
         [Effect.storeRead, Effect.storeWrite, Effect.emailSent e],
         Except.ok {token := u.generateAuthToken, user := u.toJSON})

/-- The query object of a listing request; the text field is an Option
because a request may carry no search text at all. -/
structure PageQuery where
  page : Nat
  size : Nat
  text : Option String
deriving Repr, DecidableEq

/-- The success payload of a listing request. -/
structure PageResult where
  users : List User
  page : Nat
  size : Nat
  totalPages : Nat
deriving Repr, DecidableEq

/-- Outcome of a JavaScript operation that can either throw synchronously
or complete its callback: thrown models an uncaught exception. -/
inductive JsOutcome (α : Type) where
  | thrown
  | callback (err : Option ErrMsg) (res : Option α)
deriving Repr, DecidableEq

/-- Does a user match the search text, case-insensitively across email,
profile name, and team code (the three-way or of the listing query)? -/
def userMatches (text : String) (u : User) : Bool :=
  containsCI u.email text || containsCI u.profile.name text ||
    containsCI u.teamCode text

/-- Insert a user into a list sorted ascending by profile name. -/
def insertByName (u : User) : List User → List User
  | [] => [u]
  | v :: rest =>
    if strLe u.profile.name.data v.profile.name.data then u :: v :: rest
    else v :: insertByName u rest

/-- Sort users ascending by profile name (the store sort of the listing). -/
def sortByName : List User → List User
  | [] => []
  | u :: rest => insertByName u (sortByName rest)

/-- Math.ceil (a / b) for natural a and positive b, as the source computes
the total page count. (At b = 0 the JavaScript expression is Infinity; the
claims restrict the page size to be positive.) -/
def mathCeilDiv (a b : Nat) : Nat := (a + b - 1) / b

/-- UserController.getPage: read page, size and text off the query. The
source immediately takes searchText.length, which throws on a query
carrying no text field. With text present and nonempty, filter by the
three-way case-insensitive match, else no filter; sort by profile name
ascending, skip page * size, limit size, and report totalPages as the
ceiling of the matching count over the size. -/
def getPage (store : List User) (query : PageQuery) : JsOutcome PageResult :=
  match query.text with
  | none => JsOutcome.thrown
  | some searchText =>
    let matching :=
      if searchText.length > 0 then store.filter (userMatches searchText)
      else store
    let sorted := sortByName matching
    JsOutcome.callback none (some
      { users := (sorted.drop (query.page * query.size)).take query.size,
        page := query.page, size := query.size,
        totalPages := mathCeilDiv matching.length query.size })

/-- UserController.updateProfileById: validate the profile shape, then
findOneAndUpdate filtering on the id and on verified being already true,
setting the profile, the completion flag and the last-update stamp. When
no document matches, the store calls back with neither error nor user. -/
def updateProfileById (store : List User) (id : Nat) (profile : Profile)
    (now : Nat) : List User × Option ErrMsg × Option User :=
  if !profile.wellFormed then (store, some {message := "invalid profile"}, none)
  else
    let r := findOneAndUpdate (fun u => u.id == id && u.verified)
      (fun u => { u with lastUpdated := now, profile := profile,
                         completedProfile := true }) store
    (r.1, none, r.2)

/-- UserController.verifyByToken: decode the token, then findOneAndUpdate
on an anchored case-insensitive match of the decoded email, setting
verified. The source never reads the error of the token verifier: when
the verifier rejects the token it supplies no email, string concatenation
into the pattern renders the absent value as the text undefined, and the
update runs against that literal text. -/
def verifyByToken (store : List User) (token : Token) :
    List User × Option ErrMsg × Option User :=
  let v := verifyEmailVerificationToken token
  let e := match v.2 with
    | some s => s
    | none => "undefined"
  let r := findOneAndUpdate (fun u => eqCI u.email e)
    (fun u => { u with verified := true }) store
  (r.1, none, r.2)

/-- UserController.sendPasswordResetEmail: look the email up; on a store
error or a missing user, call back with the store error, which is null
for a merely unknown email — neither error nor result. Otherwise issue a
temp token and hand the callback to the mailer; the external mailer is
modelled as completing the callback with a success value and no error. -/
def sendPasswordResetEmail (store : List User) (email : String) :
    List Effect × Option ErrMsg × Option Unit :=
  match findOneByEmail store email with
  | none => ([], none, none)
  | some user =>
    let _token := user.generateTempAuthToken
    ([Effect.emailSent email], none, some ())

/-- UserController.pushSubmissionById: findOneAndUpdate on the id alone,
unconditionally setting code and title from the submission. -/
def pushSubmissionById (store : List User) (id : Nat) (s : Submission) :
    List User × Option ErrMsg × Option User :=
  let r := findOneAndUpdate (fun u => u.id == id)
    (fun u => { u with code := s.code, title := s.title }) store
  (r.1, none, r.2)

/-- The document a successful registration saves: fresh id from the store,
normalized email, hashed password, defaults everywhere else. -/
def freshUser (store : List User) (email password : String) : User :=
  { id := store.length, email := lowerStr email,
    password := generateHash password }

/-- A demonstration store inhabitant used by concrete evaluations. -/
def aliceStored : User :=
  { id := 0, email := "alice@example.com", password := generateHash "hunter22" }

/-- Second demonstration store inhabitant. -/
def bobStored : User :=
  { id := 1, email := "bob@example.com", password := generateHash "secret1" }

/-- Third demonstration store inhabitant, on team alpha. -/
def carolStored : User :=
  { id := 2, email := "carol@example.com", password := generateHash "pw34567",
    profile := {name := "Carol"}, teamCode := "alpha" }

/-- Fourth demonstration store inhabitant, on team ALPHA9. -/
def daveStored : User :=
  { id := 3, email := "dave@example.com", password := generateHash "pw45678",
    profile := {name := "Dave"}, teamCode := "ALPHA9" }

/-! ## Helper lemmas about the store operations -/

/-- findOneAndUpdate leaves the store alone and reports no document when
nothing matches the filter. -/
theorem findOneAndUpdate_eq_none (p : User → Bool) (f : User → User)
    (l : List User) (h : ∀ v ∈ l, p v = false) :
    findOneAndUpdate p f l = (l, none) := by
  induction l with
  | nil => rfl
  | cons v rest ih =>
    simp [findOneAndUpdate, h v (List.mem_cons_self v rest),
      ih (fun w hw => h w (List.mem_cons_of_mem v hw))]

/-- findOneAndUpdate rewrites exactly the first matching document. -/
theorem findOneAndUpdate_first_match (p : User → Bool) (f : User → User)
    (pre post : List User) (u : User)
    (hpre : ∀ v ∈ pre, p v = false) (hu : p u = true) :
    findOneAndUpdate p f (pre ++ u :: post) =
      (pre ++ f u :: post, some (f u)) := by
  induction pre with
  | nil => simp [findOneAndUpdate, hu]
  | cons v rest ih =>
    simp [findOneAndUpdate, hpre v (List.mem_cons_self v rest),
      ih (fun w hw => hpre w (List.mem_cons_of_mem v hw))]

/-! ## Claim theorems -/

/-- C1: the claim says a successful registration answers with the
sanitized, password-stripped user. Evaluating createUser on a fresh store
refutes that: the callback carries the saved document as-is, and its
password field still holds the password hash. The login path deletes the
field by hand before answering; the registration path never does. -/
theorem createUser_leaks_password_hash :
    ((createUser [] (JsVal.str "New@Example.com") (some "secret1")).2.2.map
        (fun r => r.user.password)) =
      Except.ok (some (generateHash "secret1")) := rfl

/-- C2: the claim says verifyByToken calls back with an error whenever the
token verifier rejects the token. Evaluating it on a rejected token shows
the opposite: the verifier error is ignored, the update runs against the
literal text undefined, matches nothing, and the callback completes with
neither an error nor a user, the store unchanged. -/
theorem verifyByToken_rejected_token_silent :
    verifyByToken [aliceStored] (Token.invalid "garbage") =
      ([aliceStored], none, none) := rfl

/-- C4: a registration with an absent or short password fails with a
descriptive error before any store access: the store comes back unchanged,
the effect trace is empty (no read, no write), and the error is the
password-length message (or, for a non-string email, the email-type
message raised even earlier). -/
theorem createUser_short_password_no_store_access
    (store : List User) (email : JsVal) (password : Option String)
    (h : password = none ∨ ∃ p, password = some p ∧ p.length < 6) :
    (createUser store email password).1 = store ∧
    (createUser store email password).2.1 = [] ∧
    ((createUser store email password).2.2 =
        Except.error {message := "Password must be 6 or more characters."} ∨
      (createUser store email password).2.2 =
        Except.error {message := "Email must be a string."}) := by
  cases email with
  | nonStr => exact ⟨rfl, rfl, Or.inr rfl⟩
  | str e =>
    rcases h with h | ⟨p, hp, hlen⟩
    · subst h
      exact ⟨rfl, rfl, Or.inl rfl⟩
    · subst hp
      refine ⟨?_, ?_, Or.inl ?_⟩ <;> simp [createUser, canRegister, hlen]

/-- C4 witness: a concrete short-password registration attempt against a
nonempty store. -/
theorem createUser_short_password_no_store_access_witness :
    (createUser [aliceStored] (JsVal.str "x@y.com") (some "abc")).1 = [aliceStored] ∧
    (createUser [aliceStored] (JsVal.str "x@y.com") (some "abc")).2.1 = [] ∧
    ((createUser [aliceStored] (JsVal.str "x@y.com") (some "abc")).2.2 =
        Except.error {message := "Password must be 6 or more characters."} ∨
      (createUser [aliceStored] (JsVal.str "x@y.com") (some "abc")).2.2 =
        Except.error {message := "Email must be a string."}) :=
  createUser_short_password_no_store_access [aliceStored] (JsVal.str "x@y.com")
    (some "abc") (Or.inr ⟨"abc", rfl, by decide⟩)

/-- C7 counterexample: the claim says no operation completes its callback
with neither an error nor a result; a password-reset request for an email
unknown to a nonempty store does exactly that, because the store error it
passes through is null on a mere lookup miss. -/
theorem sendPasswordResetEmail_unknown_email_silent :
    sendPasswordResetEmail [aliceStored] "ghost@example.com" =
      ([], none, none) := rfl

/-- C7 amended: validation failures do surface as error-first callbacks
carrying a message, but the three lookup-miss paths the claim names
complete with neither an error nor a result: updateProfileById when no
verified user matches the id, sendPasswordResetEmail on an unknown email,
and verifyByToken on a rejected token (against a store holding no user
whose email reads as the literal text undefined). -/
theorem lookup_miss_paths_complete_silently
    (store : List User) (id : Nat) (profile : Profile) (now : Nat)
    (email : String) (token : Token) :
    (profile.wellFormed = true →
      (∀ u ∈ store, (u.id == id && u.verified) = false) →
      updateProfileById store id profile now = (store, none, none)) ∧
    ((∀ u ∈ store, eqCI u.email email = false) →
      sendPasswordResetEmail store email = ([], none, none)) ∧
    ((verifyEmailVerificationToken token).2 = none →
      (∀ u ∈ store, eqCI u.email "undefined" = false) →
      verifyByToken store token = (store, none, none)) := by
  refine ⟨?_, ?_, ?_⟩
  · intro hwf hnone
    simp [updateProfileById, hwf, findOneAndUpdate_eq_none _ _ store hnone]
  · intro hnone
    have : findOneByEmail store email = none :=
      List.find?_eq_none.mpr (fun u hu => by simp [hnone u hu])
    simp [sendPasswordResetEmail, this]
  · intro hv hnone
    simp [verifyByToken, hv, findOneAndUpdate_eq_none _ _ store hnone]

/-- C7 amended witness: the three silent paths evaluated concretely. -/
theorem lookup_miss_paths_complete_silently_witness :
    updateProfileById [aliceStored] 7 {name := "Zoe"} 99 = ([aliceStored], none, none) ∧
    sendPasswordResetEmail [aliceStored] "nobody@example.com" = ([], none, none) ∧
    verifyByToken [aliceStored] (Token.invalid "zz") = ([aliceStored], none, none) := by
  have h := lookup_miss_paths_complete_silently [aliceStored] 7 {name := "Zoe"} 99
    "nobody@example.com" (Token.invalid "zz")
  exact ⟨h.1 rfl (by decide), h.2.1 (by decide), h.2.2 rfl (by decide)⟩

/-- C9 counterexample: the claim says a listing request carrying no search
text completes without error; instead the source reads the length of the
absent text field, which throws. -/
theorem getPage_missing_text_throws :
    getPage [aliceStored] {page := 0, size := 5, text := none} =
      JsOutcome.thrown := rfl

/-- C9 amended: the text field of a listing query must be present; when it
is present but empty the request completes without error, applies no
search filter, and pages over all stored users. -/
theorem getPage_empty_text_pages_all_users
    (store : List User) (page size : Nat) :
    getPage store {page := page, size := size, text := some ""} =
      JsOutcome.callback none (some
        { users := ((sortByName store).drop (page * size)).take size,
          page := page, size := size,
          totalPages := mathCeilDiv store.length size }) := rfl

/-- C3: the login contract. A falsy password, an address the format
validator refuses, an unknown email, and a password whose hash check
fails each produce their generic error and never a token; the matching
email and password pair yields a session token bound to the id of the
stored user together with the serialized user whose password field was
deleted. -/
theorem loginWithPassword_contract
    (store : List User) (email : String) (password : Option String) :
    ((password = none ∨ ∃ p, password = some p ∧ p.length = 0) →
      loginWithPassword store email password =
        Except.error {message := "Please enter a password"}) ∧
    (∀ p, password = some p → p.length ≠ 0 → isEmail email = false →
      loginWithPassword store email password =
        Except.error {message := "Invalid email"}) ∧
    (∀ p, password = some p → p.length ≠ 0 → isEmail email = true →
      findOneByEmail store email = none →
      loginWithPassword store email password =
        Except.error {message := "We couldn\x27t find you!"}) ∧
    (∀ p u, password = some p → p.length ≠ 0 → isEmail email = true →
      findOneByEmail store email = some u → u.checkPassword p = false →
      loginWithPassword store email password =
        Except.error {message := "That\x27s not the right password."}) ∧
    (∀ p u, password = some p → p.length ≠ 0 → isEmail email = true →
      findOneByEmail store email = some u → u.checkPassword p = true →
      loginWithPassword store email password =
        Except.ok {token := Token.auth u.id, user := sanitize u} ∧
        (sanitize u).password = none) := by
  refine ⟨?_, ?_, ?_, ?_, ?_⟩
  · rintro (h | ⟨p, hp, hlen⟩)
    · subst h
      rfl
    · subst hp
      simp [loginWithPassword, hlen]
  · intro p hp hlen hmail
    subst hp
    simp [loginWithPassword, hlen, hmail]
  · intro p hp hlen hmail hfind
    subst hp
    simp [loginWithPassword, hlen, hmail, hfind]
  · intro p u hp hlen hmail hfind hpw
    subst hp
    simp [loginWithPassword, hlen, hmail, hfind, hpw]
  · intro p u hp hlen hmail hfind hpw
    subst hp
    refine ⟨?_, rfl⟩
    simp [loginWithPassword, hlen, hmail, hfind, hpw, User.generateAuthToken]

/-- C3 witness: each branch of the login contract evaluated concretely,
including a case-insensitive email match on the success and wrong-password
branches. -/
theorem loginWithPassword_contract_witness :
    loginWithPassword [aliceStored] "alice@example.com" none =
      Except.error {message := "Please enter a password"} ∧
    loginWithPassword [aliceStored] "nonsense" (some "hunter22") =
      Except.error {message := "Invalid email"} ∧
    loginWithPassword [aliceStored] "ghost@example.com" (some "hunter22") =
      Except.error {message := "We couldn\x27t find you!"} ∧
    loginWithPassword [aliceStored] "Alice@Example.com" (some "wrongpass") =
      Except.error {message := "That\x27s not the right password."} ∧
    loginWithPassword [aliceStored] "Alice@Example.com" (some "hunter22") =
      Except.ok {token := Token.auth 0, user := sanitize aliceStored} := by
  refine ⟨?_, ?_, ?_, ?_, ?_⟩
  · exact (loginWithPassword_contract [aliceStored] "alice@example.com" none).1
      (Or.inl rfl)
  · exact (loginWithPassword_contract [aliceStored] "nonsense"
      (some "hunter22")).2.1 "hunter22" rfl (by decide) (by decide)
  · exact (loginWithPassword_contract [aliceStored] "ghost@example.com"
      (some "hunter22")).2.2.1 "hunter22" rfl (by decide) (by decide) (by decide)
  · exact (loginWithPassword_contract [aliceStored] "Alice@Example.com"
      (some "wrongpass")).2.2.2.1 "wrongpass" aliceStored rfl (by decide)
      (by decide) (by decide) (by decide)
  · exact ((loginWithPassword_contract [aliceStored] "Alice@Example.com"
      (some "hunter22")).2.2.2.2 "hunter22" aliceStored rfl (by decide)
      (by decide) (by decide) (by decide)).1

/-- C5: registering twice with the same email up to case succeeds exactly
once. The first call saves the normalized document, sends the
verification email and answers with a token; the second call, whose email
lowercases to the same string, reads the store, finds the duplicate,
fails with the already-exists error, and writes nothing. -/
theorem createUser_duplicate_email_second_fails
    (store : List User) (e1 e2 p1 p2 : String)
    (hcase : lowerStr e1 = lowerStr e2)
    (hp1 : ¬ p1.length < 6) (hp2 : ¬ p2.length < 6)
    (hfresh : ∀ u ∈ store, eqCI u.email (lowerStr e1) = false) :
    createUser store (JsVal.str e1) (some p1) =
      (store ++ [freshUser store e1 p1],
       [Effect.storeRead, Effect.storeWrite, Effect.emailSent (lowerStr e1)],
       Except.ok {token := Token.auth store.length,
                  user := (freshUser store e1 p1).toJSON}) ∧
    createUser (store ++ [freshUser store e1 p1]) (JsVal.str e2) (some p2) =
      (store ++ [freshUser store e1 p1], [Effect.storeRead],
       Except.error {message := "An account for this email already exists."}) := by
  have hfind1 : findOneByEmail store (lowerStr e1) = none :=
    List.find?_eq_none.mpr (fun u hu => by simp [hfresh u hu])
  constructor
  · simp [createUser, canRegister, hp1, hfind1, freshUser, User.generateAuthToken]
  · have h1 : List.find? (fun u => eqCI u.email (lowerStr e2)) store = none := by
      apply List.find?_eq_none.mpr
      intro u hu
      rw [← hcase]
      simp [hfresh u hu]
    have h2 : eqCI (freshUser store e1 p1).email (lowerStr e2) = true := by
      simp [freshUser, eqCI, hcase]
    have hfind2 : findOneByEmail (store ++ [freshUser store e1 p1]) (lowerStr e2) =
        some (freshUser store e1 p1) := by
      rw [findOneByEmail, List.find?_append, h1]
      simp [h2]
    simp [createUser, canRegister, hp2, hfind2]

/-- C5 witness: two concrete registrations of the same address in
different letter cases against an initially empty store. -/
theorem createUser_duplicate_email_second_fails_witness :
    createUser [] (JsVal.str "Bob@Example.com") (some "secret1") =
      ([freshUser [] "Bob@Example.com" "secret1"],
       [Effect.storeRead, Effect.storeWrite, Effect.emailSent "bob@example.com"],
       Except.ok {token := Token.auth 0,
                  user := (freshUser [] "Bob@Example.com" "secret1").toJSON}) ∧
    createUser [freshUser [] "Bob@Example.com" "secret1"]
        (JsVal.str "BOB@example.COM") (some "secret2") =
      ([freshUser [] "Bob@Example.com" "secret1"], [Effect.storeRead],
       Except.error {message := "An account for this email already exists."}) := by
  have h := createUser_duplicate_email_second_fails [] "Bob@Example.com"
    "BOB@example.COM" "secret1" "secret2" (by decide) (by decide) (by decide)
    (by decide)
  exact ⟨h.1, h.2⟩

/-- C6: a token that decodes to an email marks exactly the first user
whose stored email equals it up to letter case, with all users before it
non-matching (as the uniqueness invariant guarantees), and leaves every
other stored user untouched; the updated document is reported back. -/
theorem verifyByToken_marks_exactly_matching_user
    (pre post : List User) (u : User) (e : String)
    (hu : eqCI u.email e = true)
    (hpre : ∀ v ∈ pre, eqCI v.email e = false) :
    verifyByToken (pre ++ u :: post) (Token.emailVerification e) =
      (pre ++ {u with verified := true} :: post, none,
       some {u with verified := true}) := by
  simp [verifyByToken, verifyEmailVerificationToken,
    findOneAndUpdate_first_match _ _ pre post u hpre hu]

/-- C6 witness: a verification token in a different letter case marks the
matching user and only that user. -/
theorem verifyByToken_marks_exactly_matching_user_witness :
    verifyByToken [bobStored, aliceStored]
        (Token.emailVerification "ALICE@Example.COM") =
      ([bobStored, {aliceStored with verified := true}], none,
       some {aliceStored with verified := true}) := by
  have h := verifyByToken_marks_exactly_matching_user [bobStored] []
    aliceStored "ALICE@Example.COM" (by decide) (by decide)
  exact h

/-- C8: with the text present and nonempty and a positive page size, the
listing answers without error with the page-th slice (skip page times
size, take size) of the matching users sorted ascending by profile name,
and a totalPages that is the ceiling of the matching count over the size,
characterized by its Galois property against multiplication. -/
theorem getPage_pagination_correct
    (store : List User) (page size : Nat) (text : String)
    (hsize : 0 < size) (htext : 0 < text.length) :
    getPage store {page := page, size := size, text := some text} =
      JsOutcome.callback none (some
        { users := ((sortByName (store.filter (userMatches text))).drop
            (page * size)).take size,
          page := page, size := size,
          totalPages := (store.filter (userMatches text)).length ⌈/⌉ size }) ∧
    (∀ k, (store.filter (userMatches text)).length ⌈/⌉ size ≤ k ↔
      (store.filter (userMatches text)).length ≤ size * k) := by
  constructor
  · simp [getPage, htext, mathCeilDiv, Nat.ceilDiv_eq_add_pred_div]
  · intro k
    exact ceilDiv_le_iff_le_mul hsize

/-- C8 witness: three stored users, a search text matching two of them
through their team codes case-insensitively, page 1 of size 1: the slice
holds the second user in name order and the page count is 2. -/
theorem getPage_pagination_correct_witness :
    getPage [daveStored, aliceStored, carolStored]
        {page := 1, size := 1, text := some "alpha"} =
      JsOutcome.callback none (some
        {users := [daveStored], page := 1, size := 1, totalPages := 2}) := by
  exact (getPage_pagination_correct [daveStored, aliceStored, carolStored]
    1 1 "alpha" (by decide) (by decide)).1

/-- C10: pushing two submissions in a row for the same id leaves the
stored code and title of the targeted user (the first with that id, all
earlier users having different ids) at exactly the values of the second
submission, every other user untouched, and reports the updated document;
nothing of the first submission survives. -/
theorem pushSubmissionById_last_write_wins
    (pre post : List User) (u : User) (id : Nat) (s1 s2 : Submission)
    (hu : u.id = id) (hpre : ∀ v ∈ pre, v.id ≠ id) :
    pushSubmissionById
        (pushSubmissionById (pre ++ u :: post) id s1).1 id s2 =
      (pre ++ {u with code := s2.code, title := s2.title} :: post, none,
       some {u with code := s2.code, title := s2.title}) := by
  have hpre' : ∀ v ∈ pre, (v.id == id) = false := fun v hv => by
    simp [hpre v hv]
  have hu' : (u.id == id) = true := by simp [hu]
  have h1 := findOneAndUpdate_first_match (fun v => v.id == id)
    (fun v => {v with code := s1.code, title := s1.title}) pre post u hpre' hu'
  have h2 := findOneAndUpdate_first_match (fun v => v.id == id)
    (fun v => {v with code := s2.code, title := s2.title}) pre post
    {u with code := s1.code, title := s1.title} hpre' (by simp [hu])
  simp [pushSubmissionById, h1, h2]

/-- C10 witness: two concrete submissions pushed in a row; only the second
survives on the targeted user. -/
theorem pushSubmissionById_last_write_wins_witness :
    pushSubmissionById
        (pushSubmissionById [bobStored, aliceStored] 0
          {code := "print(1)", title := "one"}).1 0
        {code := "print(2)", title := "two"} =
      ([bobStored, {aliceStored with code := "print(2)", title := "two"}],
       none, some {aliceStored with code := "print(2)", title := "two"}) := by
  have h := pushSubmissionById_last_write_wins [bobStored] [] aliceStored 0
    {code := "print(1)", title := "one"} {code := "print(2)", title := "two"}
    (by decide) (by decide)
  exact h

end Saffron
